import Mathlib

/-!
Shallow embedding of the pyradur repository (client/server shared key/value
cache) and proofs about its specification claims.

Machine-level conventions of the embedding:
* JSON-representable Python values are modelled by `JVal`; the Python value
  `None` is `JVal.null`.  JSON encode/decode (`json.dumps`/`json.loads`) of a
  JSON-representable value is treated as the identity on `JVal`, so the SQLite
  table stores `JVal`s directly.
* Python dictionaries keyed by strings or string pairs are association lists
  with first-occurrence lookup and in-place update.
* Python exceptions are the `PyErr` error type of `Except`.
* Shared-memory regions are byte lists (`List Nat`, each entry < 256 in use).
-/

namespace Pyradur

/-- JSON-representable values; `null` doubles as Python `None`. -/
inductive JVal where
  | null : JVal
  | bool (b : Bool) : JVal
  | num (n : Int) : JVal
  | str (s : String) : JVal
  | arr (xs : List JVal) : JVal
  | obj (fields : List (String × JVal)) : JVal

/-- Python exception kinds raised by the embedded code. -/
inductive PyErr where
  | keyError (arg : Option String) : PyErr
  | nameError (msg : String) : PyErr
  | typeError : PyErr
  | exception (msg : String) : PyErr
deriving DecidableEq, Repr

/-- shm.py: `SLOT_UNUSED = 0`. -/
def SLOT_UNUSED : Nat := 0

/-- shm.py: `SLOT_OK = ord('+')`. -/
def SLOT_OK : Nat := 43

/-- shm.py: `SLOT_OUT_OF_DATE = ord('*')`. -/
def SLOT_OUT_OF_DATE : Nat := 42

/-- `mmap.PAGESIZE` on the host; any positive page size works, 4096 is typical. -/
def PAGESIZE : Nat := 4096

/-- ipc.py: `STATUS_OK = 'ok'`. -/
def STATUS_OK : String := "ok"

/-- ipc.py: `STATUS_NO_VAR = 'no_var'`. -/
def STATUS_NO_VAR : String := "no_var"

/-- ipc.py: `STATUS_NO_KEY = 'no_key'`. -/
def STATUS_NO_KEY : String := "no_key"

/-- Association-list lookup (Python `d[k]` / `k in d` on a dict). -/
def alookup {α β : Type} [DecidableEq α] : List (α × β) → α → Option β
  | [], _ => none
  | (a, b) :: t, k => if a = k then some b else alookup t k

/-- Association-list update (Python `d[k] = v`): replace the first binding of
`k`, or append a new one. -/
def aset {α β : Type} [DecidableEq α] : List (α × β) → α → β → List (α × β)
  | [], k, v => [(k, v)]
  | (a, b) :: t, k, v => if a = k then (k, v) :: t else (a, b) :: aset t k v

/-- Association-list removal (Python `del d[k]` when `k` is present). -/
def aremove {α β : Type} [DecidableEq α] : List (α × β) → α → List (α × β)
  | [], _ => []
  | (a, b) :: t, k => if a = k then t else (a, b) :: aremove t k

/-- One variable's SQLite `data` table: rows of (text primary key, JSON value). -/
abbrev Table := List (String × JVal)

/-- db.py `Sqlite3DB.__getitem__`: SELECT by key; JSON-decode the row if
present, else `raise KeyError` (with no argument). -/
def sqlite_getitem (t : Table) (key : String) : Except PyErr JVal :=
  match alookup t key with
  | some v => Except.ok v
  | none => Except.error (PyErr.keyError none)

/-- db.py `Sqlite3DB.__setitem__`: SELECT by key, then UPDATE the existing row
or INSERT a new one. -/
def sqlite_setitem (t : Table) (key : String) (v : JVal) : Table :=
  match alookup t key with
  | some _ => aset t key v
  | none => t ++ [(key, v)]

/-- db.py `Sqlite3DB.__delitem__`: `DELETE from data where key=?` — removes the
row if present and raises nothing either way. -/
def sqlite_delitem (t : Table) (key : String) : Table :=
  t.filter (fun r => decide (r.1 ≠ key))

/-- db.py `DBManager`: name → backend mapping plus optional factory.  The
backend type is a parameter (`Table` when contents matter). -/
structure DBManager (δ : Type) where
  dbs : List (String × δ)
  db_factory : Option (String → δ)

/-- db.py `DBManager.add_db`: install a backend, overwriting any prior one. -/
def add_db {δ : Type} (m : DBManager δ) (name : String) (db : δ) : DBManager δ :=
  { m with dbs := aset m.dbs name db }

/-- db.py `DBManager.get_db`.  Returns the result, the updated manager, and the
number of factory invocations made by this call (0 or 1). -/
def get_db {δ : Type} (m : DBManager δ) (name : String) :
    Except PyErr δ × DBManager δ × Nat :=
  match alookup m.dbs name with
  | some db => (Except.ok db, m, 0)
  | none =>
    match m.db_factory with
    | some f =>
      let m' := add_db m name (f name)
      match alookup m'.dbs name with
      | some db => (Except.ok db, m', 1)
      | none => (Except.error (PyErr.keyError (some name)), m', 1)
    | none => (Except.error (PyErr.keyError (some name)), m, 0)

/-- A (variable, key) pair. -/
abbrev VK := String × String

/-- server.py `SockServer.Client` connection state (shared-memory part).  The
mapped region's bytes live outside this record (they alias the client's
region), so the record keeps only the mapped flag, the declared size and the
slot-association table `cache`. -/
structure SConn where
  mapped : Bool
  shm_size : Nat
  table : List (VK × Nat)

/-- server.py `SockServer.Client.mark_change`: if this connection tracks a slot
for `vk`, write `SLOT_OUT_OF_DATE` into its mapped region at that offset. -/
def mark_change (c : SConn) (region : List Nat) (vk : VK) : List Nat :=
  match alookup c.table vk with
  | some slot => region.set slot SLOT_OUT_OF_DATE
  | none => region

/-- server.py `SockServer.Client._add_slot`: record the (var, key) → slot
association when the request carries a slot and a mapping exists. -/
def add_slot (c : SConn) (vk : VK) (slot : Option Nat) : SConn :=
  match slot with
  | some s => if c.mapped then { c with table := aset c.table vk s } else c
  | none => c

/-- server.py `SockServer.Client._db_op`: resolve `var` (NO_VAR on failure),
run `op` on the store (NO_KEY when it raises KeyError — the only exception the
storage ops raise), OK otherwise.  `op` returns the updated table and an
optional value for the response (`none` models raising KeyError); the updated
table is written back, modelling in-place mutation of the store object. -/
def db_op (m : DBManager Table) (var key : String)
    (op : Table → Option (Table × Option JVal)) :
    List String × DBManager Table × Option JVal :=
  match get_db m var with
  | (Except.ok t, m', _) =>
    match op t with
    | some (t', v) => ([STATUS_OK], { m' with dbs := aset m'.dbs var t' }, v)
    | none => ([STATUS_NO_KEY, key], m', none)
  | (Except.error _, m', _) => ([STATUS_NO_VAR, var], m', none)

/-- A `response` message sent server → client. -/
structure Response where
  seq : Nat
  status : List String
  value : Option JVal := none

/-- server.py `SockServer.Client._process_get`: read the key, respond with the
status (and the value on success), then record the slot association.  This
handler sends exactly one response, returned directly. -/
def process_get (db : DBManager Table) (selfc : SConn) (seq : Nat)
    (var key : String) (slot : Option Nat) :
    DBManager Table × SConn × Response :=
  let r := db_op db var key (fun t =>
    match sqlite_getitem t key with
    | Except.ok v => some (t, some v)
    | Except.error _ => none)
  (r.2.1, add_slot selfc (var, key) slot,
    { seq := seq, status := r.1, value := r.2.2 })

/-- server.py `SockServer.Client._process_set`: write the key, record the slot
association, then report the change to the sibling connection (which marks its
tracked slot, if any, OUT_OF_DATE in its own region).  No response is sent. -/
def process_set (db : DBManager Table) (selfc sib : SConn) (sibRegion : List Nat)
    (var key : String) (value : JVal) (slot : Option Nat) :
    DBManager Table × SConn × List Nat × List Response :=
  let r := db_op db var key (fun t => some (sqlite_setitem t key value, none))
  (r.2.1, add_slot selfc (var, key) slot, mark_change sib sibRegion (var, key), [])

/-- server.py `SockServer.Client._process_del`: delete the key, record the slot
association, report the change to the sibling.  No response is sent. -/
def process_del (db : DBManager Table) (selfc sib : SConn) (sibRegion : List Nat)
    (var key : String) (slot : Option Nat) :
    DBManager Table × SConn × List Nat × List Response :=
  let r := db_op db var key (fun t => some (sqlite_delitem t key, none))
  (r.2.1, add_slot selfc (var, key) slot, mark_change sib sibRegion (var, key), [])

/-- server.py `SockServer.Client._process_release`: if a slot is tracked for
(var, key), set its shared-memory byte to `SLOT_UNUSED` and drop the table
entry; otherwise do nothing.  No response is sent. -/
def process_release (c : SConn) (region : List Nat) (var key : String) :
    SConn × List Nat :=
  match alookup c.table (var, key) with
  | some slot =>
    ({ c with table := aremove c.table (var, key) }, region.set slot SLOT_UNUSED)
  | none => (c, region)

/-- Zero the first `n` bytes of a region (a write of `n` zero bytes at offset 0
through a mapping of size `n`; bytes past the mapping are untouched). -/
def zero_fill : List Nat → Nat → List Nat
  | l, 0 => l
  | [], _ + 1 => []
  | _ :: t, n + 1 => SLOT_UNUSED :: zero_fill t n

/-- server.py `SockServer.Client._process_release_all`: if a mapping exists,
overwrite its whole byte range (`self.shm[:] = bytearray(self.shm_size)`) with
zero bytes; clear the slot table. -/
def process_release_all (c : SConn) (region : List Nat) : SConn × List Nat :=
  if c.mapped then ({ c with table := [] }, zero_fill region c.shm_size)
  else ({ c with table := [] }, region)

/-- server.py `SockServer.Client._process_sync`: respond OK, no other effect. -/
def process_sync (seq : Nat) : Response :=
  { seq := seq, status := [STATUS_OK] }

/-- server.py `SockServer.Client._process_validate_var`: resolve the variable
through the registry and respond with the status. -/
def process_validate_var (db : DBManager Table) (seq : Nat) (var : String) :
    DBManager Table × Response :=
  let r := db_op db var "" (fun t => some (t, none))
  (r.2.1, { seq := seq, status := r.1 })

/-- server.py `SockServer.Client._process_shm`: replace the mapping with one of
the declared size over the attached descriptor (no mapping when size is 0);
respond OK.  The slot table is NOT cleared.  Region bytes alias the client's
region and so are unchanged here. -/
def process_shm (c : SConn) (seq : Nat) (size : Nat) : SConn × Response :=
  ({ c with mapped := decide (size > 0), shm_size := size },
    { seq := seq, status := [STATUS_OK] })

/-- client.py `Client.Cache`: a shadow-cache entry — a slot offset plus the last
known value (Python `None`, i.e. `JVal.null`, until the first fetch). -/
structure CacheEntry where
  slot : Nat
  value : JVal

/-- client.py `Client` connection-local state.  The slot status bytes live in
the shared region (kept in `Side`), not here. -/
structure CClient where
  use_cache : Bool
  seq : Nat
  known_vars : List String
  cache : List (VK × CacheEntry)

/-- A fire-and-forget client → server message still queued in the channel. -/
inductive Msg where
  | set (seq : Nat) (var key : String) (value : JVal) (slot : Option Nat) : Msg
  | del (seq : Nat) (var key : String) (slot : Option Nat) : Msg
  | release (seq : Nat) (var key : String) : Msg
  | releaseAll (seq : Nat) : Msg

/-- One client connection together with its server-side peer state: the client
state, the server's per-connection state, the shared-memory bytes (one list,
visible identically to both ends since the server maps the client's region),
and the channel's queue of still-unprocessed fire-and-forget messages. -/
structure Side where
  cl : CClient
  sv : SConn
  region : List Nat
  pending : List Msg

/-- mmap `find` of a single byte: index of the first occurrence (Python returns
-1 for absence, modelled as `none`). -/
def shm_find : List Nat → Nat → Option Nat
  | [], _ => none
  | x :: xs, b => if x = b then some 0 else (shm_find xs b).map (· + 1)

/-- shm.py `SHMSlot.status` getter: read the slot's byte. -/
def slot_status (region : List Nat) (slot : Nat) : Nat :=
  region.getD slot SLOT_UNUSED

/-- The server processes one queued fire-and-forget message from this
connection; `sib` is the one other live connection (for `report_change`). -/
def server_step (db : DBManager Table) (selfS sib : Side) (m : Msg) :
    DBManager Table × Side × Side :=
  match m with
  | Msg.set _ var key v slot =>
    let r := process_set db selfS.sv sib.sv sib.region var key v slot
    (r.1, { selfS with sv := r.2.1 }, { sib with region := r.2.2.1 })
  | Msg.del _ var key slot =>
    let r := process_del db selfS.sv sib.sv sib.region var key slot
    (r.1, { selfS with sv := r.2.1 }, { sib with region := r.2.2.1 })
  | Msg.release _ var key =>
    let r := process_release selfS.sv selfS.region var key
    (db, { selfS with sv := r.1, region := r.2 }, sib)
  | Msg.releaseAll _ =>
    let r := process_release_all selfS.sv selfS.region
    (db, { selfS with sv := r.1, region := r.2 }, sib)

/-- The server drains a list of queued messages in arrival order. -/
def flush_msgs (db : DBManager Table) (selfS sib : Side) :
    List Msg → DBManager Table × Side × Side
  | [] => (db, selfS, sib)
  | m :: ms =>
    let r := server_step db selfS sib m
    flush_msgs r.1 r.2.1 r.2.2 ms

/-- Whenever the client blocks for a response, the server first processes every
message this connection sent earlier (strict arrival order per connection). -/
def flush_pending (db : DBManager Table) (selfS sib : Side) :
    DBManager Table × Side × Side :=
  flush_msgs db { selfS with pending := [] } sib selfS.pending

/-- client.py `Client._wait_for_response` status handling: NO_VAR raises
NameError, NO_KEY raises KeyError with the key, any other non-OK status is an
internal error; OK returns the response. -/
def wait_for_response (r : Response) : Except PyErr Response :=
  match r.status with
  | [] => Except.error (PyErr.exception "IndexError")
  | code :: args =>
    if code = STATUS_NO_VAR then
      Except.error (PyErr.nameError (args.getD 0 ""))
    else if code = STATUS_NO_KEY then
      Except.error (PyErr.keyError (some (args.getD 0 "")))
    else if code = STATUS_OK then Except.ok r
    else Except.error (PyErr.exception ("Unknown status " ++ code ++ " from server"))

/-- client.py `Client._grow_shm` followed by `Client._send_shm_message`: extend
the backing file by one page (the new bytes read as zero), remap, bump the
sequence number for the `shm` message and block for its response — which makes
the server first drain this connection's queued messages, then remap. -/
def grow_shm (db : DBManager Table) (selfS sib : Side) :
    DBManager Table × Side × Side :=
  let region' := selfS.region ++ List.replicate PAGESIZE SLOT_UNUSED
  let seq' := selfS.cl.seq + 1
  let s1 : Side := { selfS with region := region', cl := { selfS.cl with seq := seq' } }
  let f := flush_pending db s1 sib
  let r := process_shm f.2.1.sv seq' region'.length
  (f.1, { f.2.1 with sv := r.1 }, f.2.2)

/-- client.py `Client._get_free_slot`: find the first UNUSED byte; if none,
grow by one page and rescan; an internal error if still none.  Returns the
slot and the possibly-updated system. -/
def get_free_slot (db : DBManager Table) (selfS sib : Side) :
    Except PyErr (Nat × DBManager Table × Side × Side) :=
  match shm_find selfS.region SLOT_UNUSED with
  | some slot => Except.ok (slot, db, selfS, sib)
  | none =>
    let g := grow_shm db selfS sib
    match shm_find g.2.1.region SLOT_UNUSED with
    | some slot => Except.ok (slot, g.1, g.2.1, g.2.2)
    | none => Except.error (PyErr.exception "Cannot find free slot after resizing?")

/-- client.py `Client._get_cache`: return the existing shadow entry for
(var, key), or allocate a slot and create one with value `None`.  Creating an
entry does not write the slot byte — it stays whatever it was (UNUSED for a
fresh slot). -/
def get_cache (db : DBManager Table) (selfS sib : Side) (vk : VK) :
    Except PyErr (CacheEntry × DBManager Table × Side × Side) :=
  match alookup selfS.cl.cache vk with
  | some e => Except.ok (e, db, selfS, sib)
  | none =>
    match get_free_slot db selfS sib with
    | Except.error e => Except.error e
    | Except.ok (slot, db1, s1, sib1) =>
      let e : CacheEntry := { slot := slot, value := JVal.null }
      Except.ok (e, db1,
        { s1 with cl := { s1.cl with cache := aset s1.cl.cache vk e } }, sib1)

/-- client.py `Client.get`, final lines: `if value is None: raise KeyError(key)`
— a `None` value (stored null or never-fetched entry) is reported as a missing
key. -/
def none_check (key : String) (v : JVal) : Except PyErr JVal :=
  match v with
  | JVal.null => Except.error (PyErr.keyError (some key))
  | v' => Except.ok v'

/-- client.py `Client.get`, request path: stamp a fresh sequence number, send
`get` (with the shadow slot when caching, `slot = some _`), block for the
response — the server first drains this connection's queue, then answers from
the store — and on success store the value into the shadow entry and mark its
slot OK (caching only), finishing with the `None` check. -/
def client_get_fetch (db : DBManager Table) (s1 sib1 : Side) (var key : String)
    (slot : Option Nat) :
    Except PyErr JVal × DBManager Table × Side × Side × Nat :=
  let seq' := s1.cl.seq + 1
  let s2 : Side := { s1 with cl := { s1.cl with seq := seq' } }
  let f := flush_pending db s2 sib1
  let g := process_get f.1 f.2.1.sv seq' var key slot
  let s3 : Side := { f.2.1 with sv := g.2.1 }
  match wait_for_response g.2.2 with
  | Except.error err => (Except.error err, g.1, s3, f.2.2, 1)
  | Except.ok resp =>
    match resp.value with
    | none => (Except.error (PyErr.keyError (some "value")), g.1, s3, f.2.2, 1)
    | some v =>
      match slot with
      | some sl =>
        -- cache.value = response['value']; cache.status = SLOT_OK
        let e' : CacheEntry := { slot := sl, value := v }
        let s4 : Side := { s3 with
          cl := { s3.cl with cache := aset s3.cl.cache (var, key) e' },
          region := s3.region.set sl SLOT_OK }
        (none_check key v, g.1, s4, f.2.2, 1)
      | none => (none_check key v, g.1, s3, f.2.2, 1)

/-- client.py `Client.get` composed with the server's in-order processing of
this connection's traffic.  Returns the result, the updated system, and the
number of `get` requests this call sent to the server (0 when served purely
from the shadow cache). -/
def client_get (db : DBManager Table) (selfS sib : Side) (var key : String) :
    Except PyErr JVal × DBManager Table × Side × Side × Nat :=
  if selfS.cl.use_cache then
    match get_cache db selfS sib (var, key) with
    | Except.error e => (Except.error e, db, selfS, sib, 0)
    | Except.ok (e, db1, s1, sib1) =>
      if slot_status s1.region e.slot = SLOT_OK then
        (none_check key e.value, db1, s1, sib1, 0)
      else client_get_fetch db1 s1 sib1 var key (some e.slot)
  else client_get_fetch db selfS sib var key none

/-- client.py `Client.set`: stamp a fresh sequence number, update the shadow
entry (value := new value, slot byte := OK) when caching, and queue the `set`
message — no response is awaited, so the server does not process it here. -/
def client_set (db : DBManager Table) (selfS sib : Side) (var key : String)
    (value : JVal) : Except PyErr (DBManager Table × Side × Side) :=
  let seq' := selfS.cl.seq + 1
  let s1 : Side := { selfS with cl := { selfS.cl with seq := seq' } }
  if s1.cl.use_cache then
    match get_cache db s1 sib (var, key) with
    | Except.error e => Except.error e
    | Except.ok (e, db1, s2, sib1) =>
      let e' : CacheEntry := { slot := e.slot, value := value }
      let s3 : Side := { s2 with
        cl := { s2.cl with cache := aset s2.cl.cache (var, key) e' },
        region := s2.region.set e.slot SLOT_OK,
        pending := s2.pending ++ [Msg.set seq' var key value (some e.slot)] }
      Except.ok (db1, s3, sib1)
  else
    Except.ok (db,
      { s1 with pending := s1.pending ++ [Msg.set seq' var key value none] }, sib)

/-- client.py `Client.sync`: stamp a fresh sequence number and block for the
`sync` response, which forces the server to drain this connection's queue. -/
def client_sync (db : DBManager Table) (selfS sib : Side) :
    Except PyErr Response × DBManager Table × Side × Side :=
  let seq' := selfS.cl.seq + 1
  let s1 : Side := { selfS with cl := { selfS.cl with seq := seq' } }
  let f := flush_pending db s1 sib
  (wait_for_response (process_sync seq'), f.1, f.2.1, f.2.2)

/-- A Python object as handed to `len()` in ipc.py's descriptor check. -/
inductive PyObj where
  | int (n : Nat) : PyObj
  | list (xs : List Nat) : PyObj

/-- Python `len()`: the length of a list; calling it on an `int` raises
TypeError. -/
def py_len : PyObj → Except PyErr Nat
  | PyObj.list xs => Except.ok xs.length
  | PyObj.int _ => Except.error PyErr.typeError

/-- ipc.py `IPC.process_receive`, per-message descriptor handling (lines
103-121): read the message's declared `fds` count; if the queue holds fewer,
raise — but the error-message expression is
`"... Want %d, have %d" % (num_fds, len(num_fds))`, so building it evaluates
`len()` on the integer count.  Otherwise split off this message's descriptors,
hand them to the handlers, and close every one of them afterwards.  Returns
(descriptors handed to handlers, descriptors closed, remaining queue). -/
def process_one_message (num_fds : Nat) (recv_fds : List Nat) :
    Except PyErr (List Nat × List Nat × List Nat) :=
  if recv_fds.length < num_fds then
    match py_len (PyObj.int num_fds) with
    | Except.ok have_n =>
      Except.error (PyErr.exception
        ("Not enough file descriptors. Want " ++ toString num_fds ++
          ", have " ++ toString have_n))
    | Except.error e => Except.error e
  else
    let message_fds := recv_fds.take num_fds
    Except.ok (message_fds, message_fds, recv_fds.drop num_fds)

/-- ipc.py `IPC.process_receive`'s loop over every complete message currently
buffered, threading the ancillary-descriptor queue through; `counts` lists each
message's declared `fds` field in arrival order.  Returns (all descriptors
closed, in order, and the remaining queue). -/
def process_messages (recv_fds : List Nat) :
    List Nat → Except PyErr (List Nat × List Nat)
  | [] => Except.ok ([], recv_fds)
  | n :: ns =>
    match process_one_message n recv_fds with
    | Except.error e => Except.error e
    | Except.ok (_, closed, rest) =>
      match process_messages rest ns with
      | Except.error e => Except.error e
      | Except.ok (cs, q) => Except.ok (closed ++ cs, q)

/-- server.py `SockServer.Client._process_shm` descriptor handling: when the
declared size is positive, the handler keeps `os.dup(fds[0])` — a duplicate of
the attached descriptor, not the descriptor itself (which `process_receive`
closes after the handler returns); with size 0 no descriptor is kept
(`shm_fd` stays -1, modelled as `none`). -/
def process_shm_keep_fd (dup : Nat → Nat) (size : Nat) (fds : List Nat) :
    Option Nat :=
  if size > 0 then
    match fds with
    | f :: _ => some (dup f)
    | [] => none
  else none

/-- client.py `Client.__init__`: `self.seq = 0`. -/
def init_seq : Nat := 0

/-- client.py `Client._next_seq`: increment the counter and return the new
value; every outgoing request of every kind stamps `_next_seq()` into its
`seq` field. -/
def next_seq (seq : Nat) : Nat × Nat := (seq + 1, seq + 1)

/-- The `seq` values stamped on `n` successive outgoing requests, starting from
counter state `s`. -/
def stamp_seqs (s : Nat) : Nat → List Nat
  | 0 => []
  | n + 1 =>
    let r := next_seq s
    r.1 :: stamp_seqs r.2 n

/-- server.py `SockServer.__init__`: `self._suspended = 0`. -/
def init_suspended : Int := 0

/-- server.py `SockServer.suspend`: increment the pause counter. -/
def suspend (c : Int) : Int := c + 1

/-- server.py `SockServer.resume`: decrement the pause counter only when it is
positive (then notify waiters — the notification itself has no counter
effect). -/
def resume (c : Int) : Int := if c > 0 then c - 1 else c

/-- A sequence of `suspend` (`true`) / `resume` (`false`) calls applied to the
pause counter. -/
def run_pause_ops (c : Int) : List Bool → Int
  | [] => c
  | b :: bs => run_pause_ops (if b then suspend c else resume c) bs

/-- server.py `SockServer.suspended`: the context manager suspends on entry and
resumes in a `finally` block, so the resume happens whether the body exits
normally (`ok = true`) or by an exception (`ok = false`). -/
def suspended_scope (c : Int) (_ok : Bool) : Int := resume (suspend c)

/-- The round-trip scenario: connection `a` performs `set var key x` and then
`sync`; the pair holds the result of a subsequent `get var key` issued on the
writer `a` (first) or on the other connection `b` (second). -/
def set_sync_get_both (db : DBManager Table) (a b : Side) (var key : String)
    (x : JVal) : Except PyErr (Except PyErr JVal × Except PyErr JVal) :=
  match client_set db a b var key x with
  | Except.error e => Except.error e
  | Except.ok (db1, a1, b1) =>
    match client_sync db1 a1 b1 with
    | (Except.error e, _, _, _) => Except.error e
    | (Except.ok _, db2, a2, b2) =>
      Except.ok ((client_get db2 a2 b2 var key).1, (client_get db2 b2 a2 var key).1)

/-- Concrete example store: variable `"v"` registered with an empty table, no
factory. -/
def exDB : DBManager Table := { dbs := [("v", [])], db_factory := none }

/-- Concrete caching connection: fresh client (empty shadow cache, a one-byte
region of UNUSED), server peer mapped with size 1. -/
def exCacheSide : Side :=
  { cl := { use_cache := true, seq := 0, known_vars := ["v"], cache := [] },
    sv := { mapped := true, shm_size := 1, table := [] },
    region := [SLOT_UNUSED], pending := [] }

/-- Concrete non-caching connection: fresh client, no shared memory. -/
def exPlainSide : Side :=
  { cl := { use_cache := false, seq := 0, known_vars := ["v"], cache := [] },
    sv := { mapped := false, shm_size := 0, table := [] },
    region := [], pending := [] }

/-- First `get "v" "k"` on the concrete caching connection (key absent). -/
def exMissGet1 := client_get exDB exCacheSide exPlainSide "v" "k"

/-- Second `get "v" "k"` on the state left by `exMissGet1`. -/
def exMissGet2 :=
  client_get exMissGet1.2.1 exMissGet1.2.2.1 exMissGet1.2.2.2.1 "v" "k"

theorem alookup_aset_self {α β : Type} [DecidableEq α]
    (l : List (α × β)) (k : α) (v : β) : alookup (aset l k v) k = some v := by
  induction l with
  | nil => simp [aset, alookup]
  | cons hd tl ih =>
    obtain ⟨a, b⟩ := hd
    by_cases h : a = k
    · simp [aset, alookup, h]
    · simp [aset, alookup, h, ih]

theorem alookup_cons {α β : Type} [DecidableEq α]
    (a : α) (b : β) (t : List (α × β)) (k : α) :
    alookup ((a, b) :: t) k = if a = k then some b else alookup t k := rfl

theorem aset_cons {α β : Type} [DecidableEq α]
    (a : α) (b : β) (t : List (α × β)) (k : α) (v : β) :
    aset ((a, b) :: t) k v = if a = k then (k, v) :: t else (a, b) :: aset t k v := rfl

theorem aremove_cons {α β : Type} [DecidableEq α]
    (a : α) (b : β) (t : List (α × β)) (k : α) :
    aremove ((a, b) :: t) k = if a = k then t else (a, b) :: aremove t k := rfl

theorem alookup_aset_ne {α β : Type} [DecidableEq α]
    (l : List (α × β)) (k k' : α) (v : β) (h : k' ≠ k) :
    alookup (aset l k v) k' = alookup l k' := by
  have hk : ¬ (k = k') := fun hkk => h hkk.symm
  induction l with
  | nil => simp [aset, alookup, hk]
  | cons hd tl ih =>
    obtain ⟨a, b⟩ := hd
    by_cases hak : a = k
    · subst hak
      rw [aset_cons, if_pos rfl, alookup_cons, alookup_cons, if_neg hk, if_neg hk]
    · rw [aset_cons, if_neg hak, alookup_cons, alookup_cons, ih]

theorem aset_self_of_alookup {α β : Type} [DecidableEq α]
    (l : List (α × β)) (k : α) (v : β) (h : alookup l k = some v) :
    aset l k v = l := by
  induction l with
  | nil => simp [alookup] at h
  | cons hd tl ih =>
    obtain ⟨a, b⟩ := hd
    by_cases hak : a = k
    · subst hak
      rw [alookup_cons, if_pos rfl] at h
      injection h with h
      rw [aset_cons, if_pos rfl, h]
    · rw [alookup_cons, if_neg hak] at h
      rw [aset_cons, if_neg hak, ih h]

theorem alookup_eq_none {α β : Type} [DecidableEq α]
    (l : List (α × β)) (k : α) :
    alookup l k = none ↔ ∀ p ∈ l, p.1 ≠ k := by
  induction l with
  | nil => simp [alookup]
  | cons hd tl ih =>
    obtain ⟨a, b⟩ := hd
    by_cases hak : a = k
    · subst hak; simp [alookup]
    · simp [alookup, hak, ih]

theorem alookup_aremove_self {α β : Type} [DecidableEq α]
    (l : List (α × β)) (k : α) (hnd : (l.map Prod.fst).Nodup) :
    alookup (aremove l k) k = none := by
  induction l with
  | nil => simp [aremove, alookup]
  | cons hd tl ih =>
    obtain ⟨a, b⟩ := hd
    simp only [List.map_cons, List.nodup_cons] at hnd
    by_cases hak : a = k
    · subst hak
      simp only [aremove, if_pos rfl]
      rw [alookup_eq_none]
      intro p hp hpk
      exact hnd.1 (hpk ▸ List.mem_map_of_mem Prod.fst hp)
    · simp [aremove, alookup, hak, ih hnd.2]

theorem alookup_aremove_ne {α β : Type} [DecidableEq α]
    (l : List (α × β)) (k k' : α) (h : k' ≠ k) :
    alookup (aremove l k) k' = alookup l k' := by
  have hk : ¬ (k = k') := fun hkk => h hkk.symm
  induction l with
  | nil => simp [aremove]
  | cons hd tl ih =>
    obtain ⟨a, b⟩ := hd
    by_cases hak : a = k
    · subst hak
      rw [aremove_cons, if_pos rfl, alookup_cons, if_neg hk]
    · rw [aremove_cons, if_neg hak, alookup_cons, alookup_cons, ih]

theorem alookup_append_right {α β : Type} [DecidableEq α]
    (l l' : List (α × β)) (k : α) (h : alookup l k = none) :
    alookup (l ++ l') k = alookup l' k := by
  induction l with
  | nil => simp
  | cons hd tl ih =>
    obtain ⟨a, b⟩ := hd
    by_cases hak : a = k
    · simp [alookup, hak] at h
    · simp only [alookup, if_neg hak] at h
      simp [alookup, hak, ih h]

theorem alookup_sqlite_setitem_self (t : Table) (key : String) (v : JVal) :
    alookup (sqlite_setitem t key v) key = some v := by
  unfold sqlite_setitem
  cases h : alookup t key with
  | some w => exact alookup_aset_self t key v
  | none => rw [alookup_append_right t _ key h]; simp [alookup]

theorem getD_set_self (l : List Nat) (i b d : Nat) (h : i < l.length) :
    (l.set i b).getD i d = b := by
  induction l generalizing i with
  | nil => simp at h
  | cons x xs ih =>
    cases i with
    | zero => simp [List.set]
    | succ j => simpa [List.set] using ih j (by simpa using h)

theorem getD_set_ne (l : List Nat) (i j b d : Nat) (h : j ≠ i) :
    (l.set i b).getD j d = l.getD j d := by
  induction l generalizing i j with
  | nil => simp [List.set]
  | cons x xs ih =>
    cases i with
    | zero =>
      cases j with
      | zero => exact absurd rfl h
      | succ j' => simp [List.set]
    | succ i' =>
      cases j with
      | zero => simp [List.set]
      | succ j' =>
        simpa [List.set] using ih i' j' fun hj => h (by simp [hj])

theorem getD_set_oob (l : List Nat) (i j b d : Nat) (h : l.length ≤ i) :
    (l.set i b).getD j d = l.getD j d := by
  induction l generalizing i j with
  | nil => simp [List.set]
  | cons x xs ih =>
    cases i with
    | zero => simp at h
    | succ i' =>
      cases j with
      | zero => simp [List.set]
      | succ j' => simpa [List.set] using ih i' j' (by simpa using h)

theorem getD_set_unused (l : List Nat) (i j : Nat)
    (h : l.getD j SLOT_UNUSED = SLOT_UNUSED) :
    (l.set i SLOT_UNUSED).getD j SLOT_UNUSED = SLOT_UNUSED := by
  by_cases hj : j = i
  · subst hj
    by_cases hl : j < l.length
    · exact getD_set_self l j SLOT_UNUSED SLOT_UNUSED hl
    · rw [getD_set_oob l j j _ _ (Nat.le_of_not_lt hl)]; exact h
  · rw [getD_set_ne l i j _ _ hj]; exact h

theorem getD_mem {l : List Nat} {j : Nat} (h : j < l.length) (d : Nat) :
    l.getD j d ∈ l := by
  induction l generalizing j with
  | nil => simp at h
  | cons x xs ih =>
    cases j with
    | zero => simp
    | succ j' =>
      exact List.mem_cons_of_mem x (ih (by simpa using h))

theorem shm_find_eq_none (l : List Nat) (b : Nat) :
    shm_find l b = none ↔ ∀ x ∈ l, x ≠ b := by
  induction l with
  | nil => simp [shm_find]
  | cons x xs ih =>
    by_cases hx : x = b
    · simp [shm_find, hx]
    · simp [shm_find, hx, ih]

theorem shm_find_some {l : List Nat} {b i : Nat} (h : shm_find l b = some i) :
    i < l.length ∧ (∀ d, l.getD i d = b) ∧ ∀ j, j < i → ∀ d, l.getD j d ≠ b := by
  induction l generalizing i with
  | nil => simp [shm_find] at h
  | cons x xs ih =>
    by_cases hx : x = b
    · simp only [shm_find, if_pos hx, Option.some.injEq] at h
      subst h
      exact ⟨by simp, fun d => by simpa using hx, fun j hj => by omega⟩
    · simp only [shm_find, if_neg hx, Option.map_eq_some'] at h
      obtain ⟨i', hi', rfl⟩ := h
      obtain ⟨h1, h2, h3⟩ := ih hi'
      refine ⟨by simpa using h1, fun d => by simpa using h2 d, ?_⟩
      intro j hj d
      cases j with
      | zero => simpa using hx
      | succ j' => simpa using h3 j' (by omega) d

theorem zero_fill_length (l : List Nat) (n : Nat) :
    (zero_fill l n).length = l.length := by
  induction l generalizing n with
  | nil => cases n <;> simp [zero_fill]
  | cons x xs ih => cases n <;> simp [zero_fill, ih]

theorem slot_status_zero_fill (l : List Nat) (n j : Nat) :
    slot_status (zero_fill l n) j
      = if j < n then SLOT_UNUSED else slot_status l j := by
  induction l generalizing n j with
  | nil =>
    cases n with
    | zero => simp [zero_fill]
    | succ m => simp [zero_fill, slot_status]
  | cons x xs ih =>
    cases n with
    | zero => simp [zero_fill]
    | succ m =>
      cases j with
      | zero => simp [zero_fill, slot_status]
      | succ j' =>
        simpa [zero_fill, slot_status, Nat.succ_lt_succ_iff] using ih m j'

theorem stamp_seqs_eq_range' (s n : Nat) :
    stamp_seqs s n = List.range' (s + 1) n := by
  induction n generalizing s with
  | zero => rfl
  | succ m ih =>
    rw [stamp_seqs]
    simp only [next_seq]
    rw [List.range'_succ, ih]

theorem pause_step_nonneg (c : Int) (h : 0 ≤ c) (b : Bool) :
    0 ≤ (if b then suspend c else resume c) := by
  cases b
  · rw [if_neg (by simp), resume]
    split <;> omega
  · rw [if_pos rfl, suspend]
    omega

theorem run_pause_ops_nonneg (ops : List Bool) (c : Int) (h : 0 ≤ c) :
    0 ≤ run_pause_ops c ops := by
  induction ops generalizing c with
  | nil => simpa [run_pause_ops]
  | cons b bs ih =>
    rw [run_pause_ops]
    exact ih _ (pause_step_nonneg c h b)

theorem run_pause_ops_append (c : Int) (l1 l2 : List Bool) :
    run_pause_ops c (l1 ++ l2) = run_pause_ops (run_pause_ops c l1) l2 := by
  induction l1 generalizing c with
  | nil => simp [run_pause_ops]
  | cons b bs ih => simp [run_pause_ops, ih]

theorem run_pause_suspends (c : Int) (n : Nat) :
    run_pause_ops c (List.replicate n true) = c + n := by
  induction n generalizing c with
  | zero => simp [run_pause_ops]
  | succ m ih =>
    rw [List.replicate_succ, run_pause_ops, if_pos rfl, suspend, ih]
    push_cast
    omega

theorem run_pause_resumes (c : Int) (n : Nat) (h : 0 ≤ c) :
    run_pause_ops (c + n) (List.replicate n false) = c := by
  induction n with
  | zero => simp [run_pause_ops]
  | succ m ih =>
    rw [List.replicate_succ, run_pause_ops, if_neg (by simp)]
    have hr : resume (c + (m + 1 : Nat)) = c + m := by
      rw [resume, if_pos (by push_cast; omega)]
      push_cast
      omega
    rw [hr, ih]

/-- C4: when a message declares more attached descriptors than the
ancillary-descriptor queue holds, the raising branch is taken, but building
the error text evaluates `len(num_fds)` on the integer count, so the call
fails with a TypeError instead of the intended ProtocolError that reports the
claimed and available counts. -/
theorem C4_insufficient_fds_raises_typeerror :
    process_one_message 1 [] = Except.error PyErr.typeError := rfl

/-- C5: registry lookup returns the registered backend unchanged; a missing
name with an installed factory invokes the factory exactly once, registers the
result, and returns it — after which a second lookup returns the same store
with no further factory call; a missing name with no factory fails with
NotFound (KeyError). -/
theorem C5_registry_get_spec {δ : Type} (m : DBManager δ) (n : String) :
    (∀ db, alookup m.dbs n = some db → get_db m n = (Except.ok db, m, 0))
    ∧ (∀ f, alookup m.dbs n = none → m.db_factory = some f →
        get_db m n = (Except.ok (f n), add_db m n (f n), 1)
        ∧ get_db (add_db m n (f n)) n = (Except.ok (f n), add_db m n (f n), 0))
    ∧ (alookup m.dbs n = none → m.db_factory = none →
        get_db m n = (Except.error (PyErr.keyError (some n)), m, 0)) := by
  refine ⟨?_, ?_, ?_⟩
  · intro db h
    simp [get_db, h]
  · intro f h hf
    constructor
    · simp [get_db, h, hf, add_db, alookup_aset_self]
    · simp [get_db, add_db, alookup_aset_self]
  · intro h hf
    simp [get_db, h, hf]

/-- Witness for C5 at concrete registries: a registered name is returned as
is; a missing name is created once through the factory and the repeat lookup
makes no further factory call. -/
theorem C5_registry_get_spec_witness :
    get_db (DBManager.mk [("a", 7)] (none : Option (String → Nat))) "a"
      = (Except.ok 7, DBManager.mk [("a", 7)] none, 0)
    ∧ get_db (DBManager.mk ([] : List (String × Nat)) (some (fun _ => 5))) "x"
      = (Except.ok 5,
          add_db (DBManager.mk [] (some (fun _ => 5))) "x" 5, 1)
    ∧ get_db (add_db (DBManager.mk ([] : List (String × Nat))
          (some (fun _ => 5))) "x" 5) "x"
      = (Except.ok 5,
          add_db (DBManager.mk [] (some (fun _ => 5))) "x" 5, 0) :=
  ⟨(C5_registry_get_spec _ "a").1 7 (by decide),
   ((C5_registry_get_spec _ "x").2.1 (fun _ => 5) (by decide) rfl).1,
   ((C5_registry_get_spec _ "x").2.1 (fun _ => 5) (by decide) rfl).2⟩

/-- C7: the per-connection sequence counter starts at 0 and every outgoing
request stamps the counter incremented by one, so the `seq` values of `n`
successive requests are exactly 1, 2, ..., n — strictly increasing — and from
any counter state `s` they are s+1, s+2, .... -/
theorem C7_seq_strictly_increasing (n : Nat) :
    init_seq = 0
    ∧ stamp_seqs init_seq n = List.range' 1 n
    ∧ List.Pairwise (· < ·) (stamp_seqs init_seq n)
    ∧ ∀ s k, stamp_seqs s k = List.range' (s + 1) k := by
  refine ⟨rfl, stamp_seqs_eq_range' 0 n, ?_, stamp_seqs_eq_range'⟩
  show List.Pairwise (· < ·) (stamp_seqs 0 n)
  rw [stamp_seqs_eq_range' 0 n]
  exact List.pairwise_lt_range' 1 n

/-- C8: the pause counter never goes negative from any nonnegative start (in
particular from its initial value 0), `n` suspends followed by `n` resumes
restore the starting value, and the scoped `suspended()` helper restores the
counter on both the normal and the error exit path. -/
theorem C8_pause_counter_balanced (c : Int) (n : Nat) (ops : List Bool)
    (ok : Bool) (h : 0 ≤ c) :
    0 ≤ run_pause_ops c ops
    ∧ (∀ ops', 0 ≤ run_pause_ops init_suspended ops')
    ∧ run_pause_ops c (List.replicate n true ++ List.replicate n false) = c
    ∧ suspended_scope c ok = c := by
  refine ⟨run_pause_ops_nonneg _ _ h,
    fun ops' => run_pause_ops_nonneg _ _ (by simp [init_suspended]), ?_, ?_⟩
  · rw [run_pause_ops_append, run_pause_suspends, run_pause_resumes _ _ h]
  · rw [suspended_scope, suspend, resume, if_pos (by omega)]
    omega

/-- Witness for C8 at the initial counter: two suspends then two resumes come
back to 0, and a `suspended()` scope exited by an exception leaves 0. -/
theorem C8_pause_counter_balanced_witness :
    run_pause_ops 0 (List.replicate 2 true ++ List.replicate 2 false) = 0
    ∧ suspended_scope 0 false = 0 :=
  ⟨(C8_pause_counter_balanced 0 2 [] false (by omega)).2.2.1,
   (C8_pause_counter_balanced 0 2 [] false (by omega)).2.2.2⟩

/-- C9: deleting an absent key is not an error: the storage-layer delete
leaves the table unchanged (and, being a total function, raises nothing), the
server-side `_db_op` for the delete reports plain OK — not NO_KEY — and the
`del` handler emits no response at all to the deleting client, in particular
no error status. -/
theorem C9_delete_absent_is_ok (db : DBManager Table) (c sib : SConn)
    (sibR : List Nat) (var key : String) (slot : Option Nat) (t : Table)
    (hv : alookup db.dbs var = some t) (hk : alookup t key = none) :
    sqlite_delitem t key = t
    ∧ db_op db var key (fun u => some (sqlite_delitem u key, none))
        = ([STATUS_OK], db, none)
    ∧ (process_del db c sib sibR var key slot).1 = db
    ∧ (process_del db c sib sibR var key slot).2.2.2 = [] := by
  have hdel : sqlite_delitem t key = t := by
    rw [sqlite_delitem, List.filter_eq_self]
    intro p hp
    simpa using (alookup_eq_none t key).mp hk p hp
  have hop : db_op db var key (fun u => some (sqlite_delitem u key, none))
      = ([STATUS_OK], db, none) := by
    simp [db_op, get_db, hv, hdel, aset_self_of_alookup db.dbs var t hv]
  exact ⟨hdel, hop, by rw [process_del, hop], by rw [process_del, hop]⟩

/-- Witness for C9: on a store where `"v"` maps to the one-row table
`[("k0", null)]`, deleting the absent key `"k"` changes nothing, the internal
status is OK and no response is emitted. -/
theorem C9_delete_absent_is_ok_witness :
    sqlite_delitem [("k0", JVal.null)] "k" = [("k0", JVal.null)]
    ∧ (process_del (DBManager.mk [("v", [("k0", JVal.null)])] none)
        (SConn.mk false 0 []) (SConn.mk false 0 []) [] "v" "k" none).2.2.2 = [] :=
  ⟨(C9_delete_absent_is_ok (DBManager.mk [("v", [("k0", JVal.null)])] none)
      (SConn.mk false 0 []) (SConn.mk false 0 []) [] "v" "k" none
      [("k0", JVal.null)] rfl rfl).1,
   (C9_delete_absent_is_ok (DBManager.mk [("v", [("k0", JVal.null)])] none)
      (SConn.mk false 0 []) (SConn.mk false 0 []) [] "v" "k" none
      [("k0", JVal.null)] rfl rfl).2.2.2⟩

/-- C3 counterexample: a connection whose slot table maps ("v", "k") to slot 0
and whose one-byte mapped region holds OK.  Processing `release` for that pair
changes the shared-memory byte (to UNUSED), contradicting the claim that the
byte is left unchanged. -/
theorem C3_release_byte_counterexample :
    (process_release (SConn.mk true 1 [(("v", "k"), 0)]) [SLOT_OK] "v" "k").2
      ≠ [SLOT_OK]
    ∧ (process_release (SConn.mk true 1 [(("v", "k"), 0)]) [SLOT_OK] "v" "k").2
      = [SLOT_UNUSED] := by
  constructor
  · decide
  · rfl

/-- C3 amended: processing `release` for a tracked (var, key) removes the slot
association AND writes UNUSED into the shared-memory byte at that slot (other
bytes and other table entries untouched); `release` for an untracked pair does
nothing; `release-all` clears the table and zeroes every byte of the mapped
range. -/
theorem C3_release_resets_byte (c : SConn) (region : List Nat)
    (var key : String) (s : Nat) (hnd : (c.table.map Prod.fst).Nodup)
    (h : alookup c.table (var, key) = some s) :
    alookup (process_release c region var key).1.table (var, key) = none
    ∧ (s < region.length →
        slot_status (process_release c region var key).2 s = SLOT_UNUSED)
    ∧ (∀ j, j ≠ s →
        slot_status (process_release c region var key).2 j = slot_status region j)
    ∧ (∀ vk, vk ≠ (var, key) →
        alookup (process_release c region var key).1.table vk = alookup c.table vk)
    ∧ (∀ v2 k2, alookup c.table (v2, k2) = none →
        process_release c region v2 k2 = (c, region))
    ∧ (process_release_all c region).1.table = []
    ∧ (c.mapped = true → ∀ j, j < c.shm_size →
        slot_status (process_release_all c region).2 j = SLOT_UNUSED) := by
  refine ⟨?_, ?_, ?_, ?_, ?_, ?_, ?_⟩
  · rw [process_release, h]
    exact alookup_aremove_self c.table (var, key) hnd
  · intro hs
    rw [process_release, h]
    exact getD_set_self region s SLOT_UNUSED SLOT_UNUSED hs
  · intro j hj
    rw [process_release, h]
    exact getD_set_ne region s j SLOT_UNUSED SLOT_UNUSED hj
  · intro vk hvk
    rw [process_release, h]
    exact alookup_aremove_ne c.table (var, key) vk hvk
  · intro v2 k2 h2
    rw [process_release, h2]
  · rw [process_release_all]
    split <;> rfl
  · intro hm j hj
    rw [process_release_all, if_pos hm, slot_status_zero_fill, if_pos hj]

/-- Witness for C3's amended statement at the counterexample state: the table
entry is gone and the byte at slot 0 reads UNUSED. -/
theorem C3_release_resets_byte_witness :
    alookup (process_release (SConn.mk true 1 [(("v", "k"), 0)])
        [SLOT_OK] "v" "k").1.table ("v", "k") = none
    ∧ slot_status (process_release (SConn.mk true 1 [(("v", "k"), 0)])
        [SLOT_OK] "v" "k").2 0 = SLOT_UNUSED :=
  ⟨(C3_release_resets_byte (SConn.mk true 1 [(("v", "k"), 0)]) [SLOT_OK]
      "v" "k" 0 (by decide) (by decide)).1,
   (C3_release_resets_byte (SConn.mk true 1 [(("v", "k"), 0)]) [SLOT_OK]
      "v" "k" 0 (by decide) (by decide)).2.1 (by decide)⟩

theorem server_step_region (db : DBManager Table) (s sib : Side) (m : Msg) :
    (server_step db s sib m).2.1.region.length = s.region.length
    ∧ ∀ j, slot_status s.region j = SLOT_UNUSED →
        slot_status (server_step db s sib m).2.1.region j = SLOT_UNUSED := by
  cases m with
  | set seq var key v slot => exact ⟨rfl, fun j h => h⟩
  | del seq var key slot => exact ⟨rfl, fun j h => h⟩
  | release seq var key =>
    cases h : alookup s.sv.table (var, key) with
    | none =>
      constructor
      · show (process_release s.sv s.region var key).2.length = _
        simp only [process_release, h]
      · intro j hj
        show slot_status (process_release s.sv s.region var key).2 j = _
        simp only [process_release, h]
        exact hj
    | some slot =>
      constructor
      · show (process_release s.sv s.region var key).2.length = _
        simp only [process_release, h, List.length_set]
      · intro j hj
        show slot_status (process_release s.sv s.region var key).2 j = _
        simp only [process_release, h]
        exact getD_set_unused s.region slot j hj
  | releaseAll seq =>
    by_cases hm : s.sv.mapped
    · constructor
      · show (process_release_all s.sv s.region).2.length = _
        simp only [process_release_all, if_pos hm, zero_fill_length]
      · intro j hj
        show slot_status (process_release_all s.sv s.region).2 j = _
        simp only [process_release_all, if_pos hm]
        rw [slot_status_zero_fill]
        split
        · rfl
        · exact hj
    · constructor
      · show (process_release_all s.sv s.region).2.length = _
        simp only [process_release_all, if_neg hm]
      · intro j hj
        show slot_status (process_release_all s.sv s.region).2 j = _
        simp only [process_release_all, if_neg hm]
        exact hj

theorem flush_msgs_region (ms : List Msg) (db : DBManager Table) (s sib : Side) :
    (flush_msgs db s sib ms).2.1.region.length = s.region.length
    ∧ ∀ j, slot_status s.region j = SLOT_UNUSED →
        slot_status (flush_msgs db s sib ms).2.1.region j = SLOT_UNUSED := by
  induction ms generalizing db s sib with
  | nil => exact ⟨rfl, fun j h => h⟩
  | cons m ms ih =>
    have h1 := server_step_region db s sib m
    have h2 := ih (server_step db s sib m).1 (server_step db s sib m).2.1
      (server_step db s sib m).2.2
    constructor
    · show (flush_msgs _ _ _ ms).2.1.region.length = _
      rw [h2.1, h1.1]
    · intro j hj
      exact h2.2 j (h1.2 j hj)

theorem getD_append_cons (l : List Nat) (x : Nat) (r : List Nat) (d : Nat) :
    (l ++ x :: r).getD l.length d = x := by
  induction l with
  | nil => simp
  | cons y ys ih => simpa using ih

theorem grow_shm_region (db : DBManager Table) (s sib : Side) :
    (grow_shm db s sib).2.1.region.length = s.region.length + PAGESIZE
    ∧ slot_status (grow_shm db s sib).2.1.region s.region.length = SLOT_UNUSED
    ∧ (grow_shm db s sib).2.1.sv.shm_size = s.region.length + PAGESIZE
    ∧ (grow_shm db s sib).2.1.sv.mapped = true := by
  have hrep : List.replicate PAGESIZE SLOT_UNUSED
      = SLOT_UNUSED :: List.replicate 4095 SLOT_UNUSED := by
    rw [show PAGESIZE = 4095 + 1 from rfl, List.replicate_succ]
  have hflush := flush_msgs_region s.pending db
    { cl := { s.cl with seq := s.cl.seq + 1 },
      sv := s.sv,
      region := s.region ++ List.replicate PAGESIZE SLOT_UNUSED,
      pending := [] } sib
  refine ⟨?_, ?_, ?_, ?_⟩
  · show (flush_msgs _ _ _ _).2.1.region.length = _
    rw [hflush.1]
    simp
  · show slot_status (flush_msgs _ _ _ _).2.1.region _ = _
    apply hflush.2
    show (s.region ++ List.replicate PAGESIZE SLOT_UNUSED).getD s.region.length
        SLOT_UNUSED = SLOT_UNUSED
    rw [hrep]
    exact getD_append_cons s.region SLOT_UNUSED _ SLOT_UNUSED
  · show ((s.region ++ List.replicate PAGESIZE SLOT_UNUSED).length) = _
    simp
  · show decide (0 < (s.region ++ List.replicate PAGESIZE SLOT_UNUSED).length)
        = true
    rw [decide_eq_true_eq, List.length_append, List.length_replicate]
    have hp : 0 < PAGESIZE := by rw [PAGESIZE]; omega
    omega

/-- C6: slot allocation returns the offset of the first UNUSED byte when one
exists (leaving everything unchanged); when none exists it grows the region by
exactly one page, re-runs the shm handshake (the server's declared size
becomes the grown length and a mapping exists), and finds a slot in the grown
region; the internal-consistency failure branch is unreachable — the function
never returns an error. -/
theorem C6_free_slot_never_fails (db : DBManager Table) (selfS sib : Side) :
    (∀ i, shm_find selfS.region SLOT_UNUSED = some i →
        get_free_slot db selfS sib = Except.ok (i, db, selfS, sib)
        ∧ slot_status selfS.region i = SLOT_UNUSED
        ∧ ∀ j, j < i → slot_status selfS.region j ≠ SLOT_UNUSED)
    ∧ (shm_find selfS.region SLOT_UNUSED = none →
        ∃ slot, get_free_slot db selfS sib
            = Except.ok (slot, (grow_shm db selfS sib).1,
                (grow_shm db selfS sib).2.1, (grow_shm db selfS sib).2.2)
          ∧ (grow_shm db selfS sib).2.1.region.length
              = selfS.region.length + PAGESIZE
          ∧ (grow_shm db selfS sib).2.1.sv.shm_size
              = selfS.region.length + PAGESIZE
          ∧ (grow_shm db selfS sib).2.1.sv.mapped = true
          ∧ slot_status (grow_shm db selfS sib).2.1.region slot = SLOT_UNUSED)
    ∧ ∀ e, get_free_slot db selfS sib ≠ Except.error e := by
  have hgrow := grow_shm_region db selfS sib
  have main : ∀ i, shm_find selfS.region SLOT_UNUSED = some i →
      get_free_slot db selfS sib = Except.ok (i, db, selfS, sib)
      ∧ slot_status selfS.region i = SLOT_UNUSED
      ∧ ∀ j, j < i → slot_status selfS.region j ≠ SLOT_UNUSED := by
    intro i h
    obtain ⟨h1, h2, h3⟩ := shm_find_some h
    exact ⟨by simp only [get_free_slot, h], h2 SLOT_UNUSED,
      fun j hj => h3 j hj SLOT_UNUSED⟩
  have grown : shm_find selfS.region SLOT_UNUSED = none →
      ∃ slot, shm_find (grow_shm db selfS sib).2.1.region SLOT_UNUSED = some slot := by
    intro _
    cases hs : shm_find (grow_shm db selfS sib).2.1.region SLOT_UNUSED with
    | some slot => exact ⟨slot, rfl⟩
    | none =>
      exfalso
      have hall := (shm_find_eq_none _ _).mp hs
      have hlen : selfS.region.length < (grow_shm db selfS sib).2.1.region.length := by
        rw [hgrow.1]
        have hp : 0 < PAGESIZE := by rw [PAGESIZE]; omega
        omega
      have hmem := getD_mem hlen SLOT_UNUSED
      have hz := hgrow.2.1
      rw [slot_status] at hz
      rw [hz] at hmem
      exact hall SLOT_UNUSED hmem rfl
  refine ⟨main, ?_, ?_⟩
  · intro h
    obtain ⟨slot, hs⟩ := grown h
    obtain ⟨h1, h2, h3⟩ := shm_find_some hs
    refine ⟨slot, ?_, hgrow.1, hgrow.2.2.1, hgrow.2.2.2, h2 SLOT_UNUSED⟩
    simp only [get_free_slot, h, hs]
  · intro e
    cases h : shm_find selfS.region SLOT_UNUSED with
    | some i =>
      rw [(main i h).1]
      exact fun hc => Except.noConfusion hc
    | none =>
      obtain ⟨slot, hs⟩ := grown h
      rw [show get_free_slot db selfS sib
          = Except.ok (slot, (grow_shm db selfS sib).1,
            (grow_shm db selfS sib).2.1, (grow_shm db selfS sib).2.2) from by
        simp only [get_free_slot, h, hs]]
      exact fun hc => Except.noConfusion hc

/-- Witness for C6 on a concrete one-byte UNUSED region: allocation returns
the first UNUSED offset, slot 0, with no growth and no error. -/
theorem C6_free_slot_never_fails_witness :
    get_free_slot exDB exCacheSide exPlainSide
      = Except.ok (0, exDB, exCacheSide, exPlainSide)
    ∧ slot_status exCacheSide.region 0 = SLOT_UNUSED :=
  ⟨((C6_free_slot_never_fails exDB exCacheSide exPlainSide).1 0 (by decide)).1,
   ((C6_free_slot_never_fails exDB exCacheSide exPlainSide).1 0 (by decide)).2.1⟩

/-- C10: when the queue holds enough descriptors, every descriptor attributed
to the dispatched messages by their declared counts is split off the queue, in
order, handed to the handlers and closed afterwards — handlers receive exactly
the descriptors that are then closed — so the shm handler's kept descriptor is
`dup` of the attached one, distinct from every descriptor closed for that
message. -/
theorem C10_attributed_fds_closed (q ms : List Nat) (dup : Nat → Nat)
    (f : Nat) (rest : List Nat) (size : Nat)
    (h : ms.sum ≤ q.length) (hdup : ∀ g, dup g ≠ g) (hsize : 0 < size) :
    process_messages q ms = Except.ok (q.take ms.sum, q.drop ms.sum)
    ∧ (∀ n r, n ≤ List.length r →
        process_one_message n r = Except.ok (r.take n, r.take n, r.drop n))
    ∧ process_one_message 1 (f :: rest) = Except.ok ([f], [f], rest)
    ∧ process_shm_keep_fd dup size [f] = some (dup f)
    ∧ dup f ∉ [f] := by
  have hone : ∀ n r, n ≤ List.length r →
      process_one_message n r = Except.ok (r.take n, r.take n, r.drop n) := by
    intro n r hn
    rw [process_one_message, if_neg (by omega)]
  refine ⟨?_, hone, ?_, ?_, ?_⟩
  · induction ms generalizing q with
    | nil => simp [process_messages]
    | cons n ns ih =>
      have hsum : n + ns.sum ≤ q.length := by simpa [List.sum_cons] using h
      have hd : ns.sum ≤ (q.drop n).length := by simp; omega
      rw [process_messages, hone n q (by omega)]
      simp only [List.sum_cons]
      simp [ih (q.drop n) hd, List.take_add, List.drop_drop]
  · exact hone 1 (f :: rest) (by simp)
  · rw [process_shm_keep_fd, if_pos hsize]
  · simpa using hdup f

/-- Witness for C10: a queue of two descriptors consumed by two one-descriptor
messages is fully closed in order, and the shm handler's dup (successor here)
of descriptor 10 is not the closed descriptor 10. -/
theorem C10_attributed_fds_closed_witness :
    process_messages [10, 20] [1, 1] = Except.ok ([10, 20], [])
    ∧ process_one_message 1 [10] = Except.ok ([10], [10], [])
    ∧ process_shm_keep_fd Nat.succ 1 [10] = some 11
    ∧ 11 ∉ [10] :=
  ⟨(C10_attributed_fds_closed [10, 20] [1, 1] Nat.succ 10 [] 1 (by decide)
      (fun g => Nat.succ_ne_self g) (by decide)).1,
   (C10_attributed_fds_closed [10, 20] [1, 1] Nat.succ 10 [] 1 (by decide)
      (fun g => Nat.succ_ne_self g) (by decide)).2.2.1,
   (C10_attributed_fds_closed [10, 20] [1, 1] Nat.succ 10 [] 1 (by decide)
      (fun g => Nat.succ_ne_self g) (by decide)).2.2.2.1,
   (C10_attributed_fds_closed [10, 20] [1, 1] Nat.succ 10 [] 1 (by decide)
      (fun g => Nat.succ_ne_self g) (by decide)).2.2.2.2⟩

theorem side_pending_eta (s : Side) (h : s.pending = []) :
    ({ s with pending := [] } : Side) = s := by
  cases s
  simp_all

theorem flush_pending_nil (db : DBManager Table) (s sib : Side)
    (h : s.pending = []) :
    flush_pending db s sib = (db, s, sib) := by
  rw [flush_pending, h, flush_msgs, side_pending_eta s h]

theorem wait_for_response_ok (seq : Nat) (v : Option JVal) :
    wait_for_response { seq := seq, status := [STATUS_OK], value := v }
      = Except.ok { seq := seq, status := [STATUS_OK], value := v } := by
  simp [wait_for_response, STATUS_OK, STATUS_NO_VAR, STATUS_NO_KEY]

theorem wait_for_response_no_key (seq : Nat) (key : String) (v : Option JVal) :
    wait_for_response { seq := seq, status := [STATUS_NO_KEY, key], value := v }
      = Except.error (PyErr.keyError (some key)) := by
  simp [wait_for_response, STATUS_OK, STATUS_NO_VAR, STATUS_NO_KEY]

theorem none_check_of_ne (key : String) (v : JVal) (h : v ≠ JVal.null) :
    none_check key v = Except.ok v := by
  cases v with
  | null => exact absurd rfl h
  | bool b => rfl
  | num n => rfl
  | str s => rfl
  | arr xs => rfl
  | obj fs => rfl

theorem process_get_eval (db : DBManager Table) (c : SConn) (seq : Nat)
    (var key : String) (slot : Option Nat) (t : Table)
    (hv : alookup db.dbs var = some t) :
    process_get db c seq var key slot
      = (db, add_slot c (var, key) slot,
          match alookup t key with
          | some v => { seq := seq, status := [STATUS_OK], value := some v }
          | none =>
            { seq := seq, status := [STATUS_NO_KEY, key], value := none }) := by
  cases hk : alookup t key with
  | some v =>
    simp [process_get, db_op, get_db, hv, sqlite_getitem, hk,
      aset_self_of_alookup db.dbs var t hv]
  | none =>
    simp [process_get, db_op, get_db, hv, sqlite_getitem, hk]

theorem grow_shm_nil (db : DBManager Table) (s sib : Side)
    (hp : s.pending = []) :
    (grow_shm db s sib).1 = db
    ∧ (grow_shm db s sib).2.2 = sib
    ∧ (grow_shm db s sib).2.1.pending = []
    ∧ (grow_shm db s sib).2.1.cl.use_cache = s.cl.use_cache
    ∧ (grow_shm db s sib).2.1.cl.cache = s.cl.cache
    ∧ (grow_shm db s sib).2.1.region
        = s.region ++ List.replicate PAGESIZE SLOT_UNUSED := by
  refine ⟨?_, ?_, ?_, ?_, ?_, ?_⟩ <;>
    simp [grow_shm, flush_pending, flush_msgs, hp, process_shm]

theorem shm_find_grow_some (db : DBManager Table) (s sib : Side) :
    ∃ slot,
      shm_find (grow_shm db s sib).2.1.region SLOT_UNUSED = some slot := by
  have hgrow := grow_shm_region db s sib
  cases hs : shm_find (grow_shm db s sib).2.1.region SLOT_UNUSED with
  | some slot => exact ⟨slot, rfl⟩
  | none =>
    exfalso
    have hall := (shm_find_eq_none _ _).mp hs
    have hlen : s.region.length < (grow_shm db s sib).2.1.region.length := by
      rw [hgrow.1]
      have hpos : 0 < PAGESIZE := by rw [PAGESIZE]; omega
      omega
    have hmem := getD_mem hlen SLOT_UNUSED
    have hz := hgrow.2.1
    rw [slot_status] at hz
    rw [hz] at hmem
    exact hall SLOT_UNUSED hmem rfl

theorem get_cache_nil (db : DBManager Table) (s sib : Side) (vk : VK)
    (hp : s.pending = []) :
    ∃ e s1, get_cache db s sib vk = Except.ok (e, db, s1, sib)
      ∧ s1.pending = [] ∧ s1.cl.use_cache = s.cl.use_cache
      ∧ alookup s1.cl.cache vk = some e
      ∧ ((s1 = s ∧ alookup s.cl.cache vk = some e)
          ∨ (alookup s.cl.cache vk = none ∧ e.value = JVal.null
              ∧ slot_status s1.region e.slot = SLOT_UNUSED)) := by
  cases hlk : alookup s.cl.cache vk with
  | some e =>
    refine ⟨e, s, ?_, hp, rfl, hlk, Or.inl ⟨rfl, rfl⟩⟩
    simp only [get_cache, hlk]
  | none =>
    cases hf : shm_find s.region SLOT_UNUSED with
    | some slot =>
      obtain ⟨h1, h2, h3⟩ := shm_find_some hf
      refine ⟨⟨slot, JVal.null⟩,
        { s with cl := { s.cl with
            cache := aset s.cl.cache vk ⟨slot, JVal.null⟩ } },
        ?_, hp, rfl, ?_, Or.inr ⟨rfl, rfl, ?_⟩⟩
      · simp only [get_cache, hlk, get_free_slot, hf]
      · exact alookup_aset_self s.cl.cache vk ⟨slot, JVal.null⟩
      · exact h2 SLOT_UNUSED
    | none =>
      obtain ⟨slot, hs⟩ := shm_find_grow_some db s sib
      obtain ⟨hh1, hh2, hh3⟩ := shm_find_some hs
      have hg := grow_shm_nil db s sib hp
      refine ⟨⟨slot, JVal.null⟩,
        { (grow_shm db s sib).2.1 with
          cl := { (grow_shm db s sib).2.1.cl with
            cache := aset (grow_shm db s sib).2.1.cl.cache vk
              ⟨slot, JVal.null⟩ } },
        ?_, ?_, ?_, ?_, ?_⟩
      · simp only [get_cache, hlk, get_free_slot, hf, hs, hg.1, hg.2.1]
      · exact hg.2.2.1
      · exact hg.2.2.2.1
      · exact alookup_aset_self (grow_shm db s sib).2.1.cl.cache vk
          ⟨slot, JVal.null⟩
      · exact Or.inr ⟨rfl, rfl, hh2 SLOT_UNUSED⟩

theorem client_get_fetch_hit (db : DBManager Table) (s1 sib : Side)
    (var key : String) (slotOpt : Option Nat) (t : Table) (x : JVal)
    (hv : alookup db.dbs var = some t) (hp : s1.pending = [])
    (hkv : alookup t key = some x) :
    (client_get_fetch db s1 sib var key slotOpt).1 = none_check key x := by
  have hf := flush_pending_nil db
    { s1 with cl := { s1.cl with seq := s1.cl.seq + 1 } } sib hp
  have hg := process_get_eval db s1.sv (s1.cl.seq + 1) var key slotOpt t hv
  simp only [client_get_fetch, hf, hg, hkv, wait_for_response_ok]
  cases slotOpt <;> rfl

theorem client_get_fetch_miss (db : DBManager Table) (s1 sib : Side)
    (var key : String) (slotOpt : Option Nat) (t : Table)
    (hv : alookup db.dbs var = some t) (hp : s1.pending = [])
    (hk : alookup t key = none) :
    client_get_fetch db s1 sib var key slotOpt
      = (Except.error (PyErr.keyError (some key)), db,
          { s1 with
            cl := { s1.cl with seq := s1.cl.seq + 1 },
            sv := add_slot s1.sv (var, key) slotOpt },
          sib, 1) := by
  have hf := flush_pending_nil db
    { s1 with cl := { s1.cl with seq := s1.cl.seq + 1 } } sib hp
  have hg := process_get_eval db s1.sv (s1.cl.seq + 1) var key slotOpt t hv
  simp only [client_get_fetch, hf, hg, hk, wait_for_response_no_key]

theorem client_get_nocache (db : DBManager Table) (s sib : Side)
    (var key : String) (hnc : s.cl.use_cache = false) :
    client_get db s sib var key = client_get_fetch db s sib var key none := by
  simp [client_get, hnc]

theorem client_get_cached_hit (db : DBManager Table) (s sib : Side)
    (var key : String) (e : CacheEntry) (hc : s.cl.use_cache = true)
    (he : alookup s.cl.cache (var, key) = some e)
    (hst : slot_status s.region e.slot = SLOT_OK) :
    client_get db s sib var key = (none_check key e.value, db, s, sib, 0) := by
  simp [client_get, hc, get_cache, he, hst]

theorem client_get_cached_fetches (db : DBManager Table) (s sib : Side)
    (var key : String) (hc : s.cl.use_cache = true) (hp : s.pending = [])
    (hstale : ∀ e, alookup s.cl.cache (var, key) = some e →
        slot_status s.region e.slot ≠ SLOT_OK) :
    ∃ e s1,
      client_get db s sib var key
        = client_get_fetch db s1 sib var key (some e.slot)
      ∧ s1.pending = [] ∧ s1.cl.use_cache = true
      ∧ alookup s1.cl.cache (var, key) = some e
      ∧ slot_status s1.region e.slot ≠ SLOT_OK
      ∧ (alookup s.cl.cache (var, key) = none → e.value = JVal.null
          ∧ slot_status s1.region e.slot = SLOT_UNUSED) := by
  obtain ⟨e, s1, hgc, hp1, hcu1, he1, hdisj⟩ :=
    get_cache_nil db s sib (var, key) hp
  have hno : ¬ slot_status s1.region e.slot = SLOT_OK := by
    rcases hdisj with ⟨hs1, hlk⟩ | ⟨hlk, hval, hun⟩
    · subst hs1
      exact hstale e hlk
    · rw [hun]
      rw [SLOT_UNUSED, SLOT_OK]
      omega
  refine ⟨e, s1, ?_, hp1, hc ▸ hcu1, he1, hno, ?_⟩
  · simp only [client_get, hc, if_true, hgc, if_neg hno]
  · intro hnone
    rcases hdisj with ⟨hs1, hlk⟩ | ⟨hlk, hval, hun⟩
    · rw [hnone] at hlk
      exact absurd hlk (by simp)
    · exact ⟨hval, hun⟩

theorem client_get_cached_miss_spec (db : DBManager Table) (b sib : Side)
    (var key : String) (t : Table)
    (hc : b.cl.use_cache = true) (hp : b.pending = [])
    (hv : alookup db.dbs var = some t) (hk : alookup t key = none)
    (hstale : ∀ e, alookup b.cl.cache (var, key) = some e →
        slot_status b.region e.slot ≠ SLOT_OK) :
    (client_get db b sib var key).1 = Except.error (PyErr.keyError (some key))
    ∧ (client_get db b sib var key).2.1 = db
    ∧ (client_get db b sib var key).2.2.2.1 = sib
    ∧ (client_get db b sib var key).2.2.2.2 = 1
    ∧ (client_get db b sib var key).2.2.1.pending = []
    ∧ (client_get db b sib var key).2.2.1.cl.use_cache = true
    ∧ ∃ e,
        alookup (client_get db b sib var key).2.2.1.cl.cache (var, key) = some e
        ∧ slot_status (client_get db b sib var key).2.2.1.region e.slot ≠ SLOT_OK
        ∧ (alookup b.cl.cache (var, key) = none →
            e.value = JVal.null
            ∧ slot_status (client_get db b sib var key).2.2.1.region e.slot
                = SLOT_UNUSED) := by
  obtain ⟨e, s1, heq, hp1, hcu1, he1, hst1, hfresh⟩ :=
    client_get_cached_fetches db b sib var key hc hp hstale
  have hm := client_get_fetch_miss db s1 sib var key (some e.slot) t hv hp1 hk
  rw [heq, hm]
  exact ⟨rfl, rfl, rfl, rfl, hp1, hcu1, e, he1, hst1, hfresh⟩

theorem client_set_nil (db : DBManager Table) (a b : Side) (var key : String)
    (x : JVal) (hpA : a.pending = []) :
    ∃ a1 slOpt, client_set db a b var key x = Except.ok (db, a1, b)
      ∧ a1.pending = [Msg.set (a.cl.seq + 1) var key x slOpt]
      ∧ a1.cl.use_cache = a.cl.use_cache
      ∧ (a.cl.use_cache = true → ∃ sl, slOpt = some sl
          ∧ alookup a1.cl.cache (var, key) = some { slot := sl, value := x })
      ∧ (a.cl.use_cache = false → slOpt = none ∧ a1.cl.cache = a.cl.cache) := by
  by_cases hca : a.cl.use_cache = true
  · have hp1 : ({ a with cl := { a.cl with seq := a.cl.seq + 1 } } : Side).pending
        = [] := hpA
    obtain ⟨e, s2, hgc, hp2, hcu2, he2, hdisj⟩ :=
      get_cache_nil db { a with cl := { a.cl with seq := a.cl.seq + 1 } } b
        (var, key) hp1
    refine ⟨{ s2 with
        cl := { s2.cl with
          cache := aset s2.cl.cache (var, key) { slot := e.slot, value := x } },
        region := s2.region.set e.slot SLOT_OK,
        pending := s2.pending ++ [Msg.set (a.cl.seq + 1) var key x (some e.slot)] },
      some e.slot, ?_, ?_, ?_, ?_, ?_⟩
    · dsimp only at hgc
      simp only [client_set]
      rw [if_pos hca, hgc]
    · rw [hp2]
      rfl
    · exact hcu2
    · intro _
      exact ⟨e.slot, rfl, alookup_aset_self s2.cl.cache (var, key)
        { slot := e.slot, value := x }⟩
    · intro h
      rw [hca] at h
      exact Bool.noConfusion h
  · have hcf : a.cl.use_cache = false := by
      revert hca
      cases a.cl.use_cache <;> simp
    refine ⟨{ a with
        cl := { a.cl with seq := a.cl.seq + 1 },
        pending := a.pending ++ [Msg.set (a.cl.seq + 1) var key x none] },
      none, ?_, ?_, rfl, ?_, ?_⟩
    · simp only [client_set, hcf]
      rfl
    · rw [hpA]
      rfl
    · intro h
      rw [h] at hcf
      exact Bool.noConfusion hcf
    · intro _
      exact ⟨rfl, rfl⟩

theorem client_sync_one_set (db : DBManager Table) (a1 b : Side)
    (var key : String) (x : JVal) (slOpt : Option Nat) (q : Nat) (t : Table)
    (hv : alookup db.dbs var = some t)
    (hpend : a1.pending = [Msg.set q var key x slOpt]) :
    client_sync db a1 b
      = (Except.ok (process_sync (a1.cl.seq + 1)),
          { dbs := aset db.dbs var (sqlite_setitem t key x),
            db_factory := db.db_factory },
          { a1 with
            cl := { a1.cl with seq := a1.cl.seq + 1 },
            sv := add_slot a1.sv (var, key) slOpt,
            pending := [] },
          { b with region := mark_change b.sv b.region (var, key) }) := by
  simp only [client_sync, flush_pending, hpend, flush_msgs, server_step,
    process_set, db_op, get_db, hv, wait_for_response_ok, process_sync]

theorem roundtrip_get_ok (db2 : DBManager Table) (s sib : Side)
    (var key : String) (x : JVal) (t2 : Table)
    (hx : x ≠ JVal.null) (hv2 : alookup db2.dbs var = some t2)
    (hkv2 : alookup t2 key = some x) (hp : s.pending = [])
    (hcase : s.cl.use_cache = false
      ∨ (s.cl.use_cache = true
          ∧ ∀ e, alookup s.cl.cache (var, key) = some e →
              slot_status s.region e.slot ≠ SLOT_OK)
      ∨ (s.cl.use_cache = true
          ∧ ∃ sl, alookup s.cl.cache (var, key)
              = some { slot := sl, value := x })) :
    (client_get db2 s sib var key).1 = Except.ok x := by
  have fetch_done : ∀ s1 : Side, s1.pending = [] → ∀ slotOpt,
      (client_get_fetch db2 s1 sib var key slotOpt).1 = Except.ok x := by
    intro s1 hp1 slotOpt
    rw [client_get_fetch_hit db2 s1 sib var key slotOpt t2 x hv2 hp1 hkv2]
    exact none_check_of_ne key x hx
  have stale_done : s.cl.use_cache = true →
      (∀ e, alookup s.cl.cache (var, key) = some e →
        slot_status s.region e.slot ≠ SLOT_OK) →
      (client_get db2 s sib var key).1 = Except.ok x := by
    intro hc hstale
    obtain ⟨e, s1, heq, hp1, _, _, _, _⟩ :=
      client_get_cached_fetches db2 s sib var key hc hp hstale
    rw [heq]
    exact fetch_done s1 hp1 (some e.slot)
  rcases hcase with hnc | ⟨hc, hstale⟩ | ⟨hc, sl, he⟩
  · rw [client_get_nocache db2 s sib var key hnc]
    exact fetch_done s hp none
  · exact stale_done hc hstale
  · by_cases hst : slot_status s.region
        ({ slot := sl, value := x } : CacheEntry).slot = SLOT_OK
    · rw [client_get_cached_hit db2 s sib var key _ hc he hst]
      exact none_check_of_ne key x hx
    · refine stale_done hc ?_
      intro e' he'
      rw [he] at he'
      injection he' with he'
      rw [← he']
      exact hst

theorem mark_change_not_ok (b : Side) (var key : String)
    (hOK : ∀ e, alookup b.cl.cache (var, key) = some e →
        slot_status b.region e.slot = SLOT_OK →
        alookup b.sv.table (var, key) = some e.slot
          ∧ e.slot < b.region.length) :
    ∀ e, alookup b.cl.cache (var, key) = some e →
      slot_status (mark_change b.sv b.region (var, key)) e.slot ≠ SLOT_OK := by
  intro e he hOKst
  cases htab : alookup b.sv.table (var, key) with
  | none =>
    have hmc : mark_change b.sv b.region (var, key) = b.region := by
      simp only [mark_change, htab]
    rw [hmc] at hOKst
    have h1 := (hOK e he hOKst).1
    rw [htab] at h1
    exact Option.noConfusion h1
  | some sl' =>
    have hmc : mark_change b.sv b.region (var, key)
        = b.region.set sl' SLOT_OUT_OF_DATE := by
      simp only [mark_change, htab]
    rw [hmc] at hOKst
    by_cases hsl : e.slot = sl'
    · subst hsl
      by_cases hlen : e.slot < b.region.length
      · rw [slot_status, getD_set_self _ _ _ _ hlen] at hOKst
        exact absurd hOKst (by decide)
      · rw [slot_status, getD_set_oob _ _ _ _ _ (Nat.le_of_not_lt hlen)] at hOKst
        exact hlen (hOK e he hOKst).2
    · rw [slot_status, getD_set_ne _ _ _ _ _ hsl] at hOKst
      have h1 := (hOK e he hOKst).1
      rw [htab] at h1
      injection h1 with h1
      exact hsl h1.symm

/-- C1 amended: for every variable registered with a store and every
JSON-representable value x OTHER THAN null, `set(v, k, x)` on one quiescent
client followed, after `sync()`, by `get(v, k)` on either client (caching or
not) returns exactly x.  For x = null the get fails with NotFound (KeyError):
the client maps a null value to key absence (`if value is None: raise
KeyError(key)`), so a stored null is not distinguishable from an absent key
through get.  Hypotheses: both connections quiescent (no queued
fire-and-forget messages) and the reader's valid shadow entries tracked
server-side at their own in-range slots (the invariant the protocol
maintains). -/
theorem C1_roundtrip_non_null (db : DBManager Table) (a b : Side)
    (var key : String) (x : JVal) (t : Table)
    (hx : x ≠ JVal.null)
    (hv : alookup db.dbs var = some t)
    (hpA : a.pending = []) (hpB : b.pending = [])
    (hOK : ∀ e, alookup b.cl.cache (var, key) = some e →
        slot_status b.region e.slot = SLOT_OK →
        alookup b.sv.table (var, key) = some e.slot
          ∧ e.slot < b.region.length) :
    set_sync_get_both db a b var key x
      = Except.ok (Except.ok x, Except.ok x) := by
  obtain ⟨a1, slOpt, hset, hpend1, hcu1, hctrue, hcfalse⟩ :=
    client_set_nil db a b var key x hpA
  have hsync := client_sync_one_set db a1 b var key x slOpt (a.cl.seq + 1) t
    hv hpend1
  have hv2 : alookup (DBManager.mk
      (aset db.dbs var (sqlite_setitem t key x)) db.db_factory).dbs var
      = some (sqlite_setitem t key x) :=
    alookup_aset_self db.dbs var (sqlite_setitem t key x)
  have hkv2 := alookup_sqlite_setitem_self t key x
  have hgetA : (client_get
      (DBManager.mk (aset db.dbs var (sqlite_setitem t key x)) db.db_factory)
      { a1 with
        cl := { a1.cl with seq := a1.cl.seq + 1 },
        sv := add_slot a1.sv (var, key) slOpt,
        pending := [] }
      { b with region := mark_change b.sv b.region (var, key) } var key).1
      = Except.ok x := by
    apply roundtrip_get_ok _ _ _ var key x (sqlite_setitem t key x) hx hv2
      hkv2 rfl
    by_cases hca : a.cl.use_cache = true
    · obtain ⟨sl, hso, hl⟩ := hctrue hca
      exact Or.inr (Or.inr ⟨hcu1.trans hca, sl, hl⟩)
    · have hcaf : a.cl.use_cache = false := by
        revert hca
        cases a.cl.use_cache <;> simp
      exact Or.inl (hcu1.trans hcaf)
  have hgetB : (client_get
      (DBManager.mk (aset db.dbs var (sqlite_setitem t key x)) db.db_factory)
      { b with region := mark_change b.sv b.region (var, key) }
      { a1 with
        cl := { a1.cl with seq := a1.cl.seq + 1 },
        sv := add_slot a1.sv (var, key) slOpt,
        pending := [] } var key).1
      = Except.ok x := by
    apply roundtrip_get_ok _ _ _ var key x (sqlite_setitem t key x) hx hv2
      hkv2 (show ({ b with
          region := mark_change b.sv b.region (var, key) } : Side).pending
        = [] from hpB)
    by_cases hcb : b.cl.use_cache = true
    · exact Or.inr (Or.inl ⟨hcb, mark_change_not_ok b var key hOK⟩)
    · have hcbf : b.cl.use_cache = false := by
        revert hcb
        cases b.cl.use_cache <;> simp
      exact Or.inl hcbf
  simp only [set_sync_get_both, hset, hsync]
  rw [hgetA, hgetB]

/-- C1 counterexample: on a concrete system with variable `"v"` registered and
two non-caching connections, `set("v", "k", null)` followed by `sync()` and
`get("v", "k")` fails with NotFound (KeyError "k") on both the writer and the
other connection — the claim's "returns exactly x (including null)" is false
at x = null, and the stored null is indistinguishable from absence. -/
theorem C1_null_roundtrip_counterexample :
    set_sync_get_both exDB exPlainSide exPlainSide "v" "k" JVal.null
      = Except.ok (Except.error (PyErr.keyError (some "k")),
          Except.error (PyErr.keyError (some "k")))
    ∧ (Except.error (PyErr.keyError (some "k")) : Except PyErr JVal)
        ≠ Except.ok JVal.null :=
  ⟨rfl, fun h => Except.noConfusion h⟩

/-- Witness for C1 at a concrete system: a cached writer and a non-caching
reader round-trip the string value `"bar"` exactly. -/
theorem C1_roundtrip_non_null_witness :
    set_sync_get_both exDB exCacheSide exPlainSide "v" "k" (JVal.str "bar")
      = Except.ok (Except.ok (JVal.str "bar"), Except.ok (JVal.str "bar")) :=
  C1_roundtrip_non_null exDB exCacheSide exPlainSide "v" "k" (JVal.str "bar")
    [] (fun h => JVal.noConfusion h) rfl rfl rfl
    (fun _ he _ => Option.noConfusion he)

/-- C2 counterexample: on a concrete caching client (variable `"v"` registered
with an empty store), the first `get "v" "k"` fails with KeyError as claimed,
but the shadow entry it leaves holds value None with its slot byte still
UNUSED — NOT marked OK — and the second `get` of the same key sends another
request to the server (request count 1, not 0), so there is no negative
caching. -/
theorem C2_negative_caching_counterexample :
    exMissGet1.1 = Except.error (PyErr.keyError (some "k"))
    ∧ alookup exMissGet1.2.2.1.cl.cache ("v", "k")
        = some { slot := 0, value := JVal.null }
    ∧ slot_status exMissGet1.2.2.1.region 0 ≠ SLOT_OK
    ∧ exMissGet2.2.2.2.2 = 1 :=
  ⟨rfl, rfl, by decide, by decide⟩

/-- C2 amended: for a caching-enabled client, a get(var, key) for a key absent
in the store fails with NotFound (KeyError) and leaves the shadow-cache entry
for (var, key) present with value None and its slot byte unchanged (UNUSED for
a freshly created entry) — the KeyError is raised before `cache.status =
SLOT_OK` runs — so every subsequent get of the same (var, key) sends another
request to the server: there is no negative caching on read misses (only
`delete` installs an entry marked OK with an absent value). -/
theorem C2_read_miss_no_negative_cache (db : DBManager Table) (b sib : Side)
    (var key : String) (t : Table)
    (hc : b.cl.use_cache = true) (hp : b.pending = [])
    (hv : alookup db.dbs var = some t) (hk : alookup t key = none)
    (hnc : alookup b.cl.cache (var, key) = none) :
    (client_get db b sib var key).1 = Except.error (PyErr.keyError (some key))
    ∧ (client_get db b sib var key).2.2.2.2 = 1
    ∧ (∃ e, alookup (client_get db b sib var key).2.2.1.cl.cache (var, key)
          = some e
        ∧ e.value = JVal.null
        ∧ slot_status (client_get db b sib var key).2.2.1.region e.slot
            = SLOT_UNUSED)
    ∧ (client_get (client_get db b sib var key).2.1
        (client_get db b sib var key).2.2.1
        (client_get db b sib var key).2.2.2.1 var key).1
        = Except.error (PyErr.keyError (some key))
    ∧ (client_get (client_get db b sib var key).2.1
        (client_get db b sib var key).2.2.1
        (client_get db b sib var key).2.2.2.1 var key).2.2.2.2 = 1 := by
  have hstale : ∀ e, alookup b.cl.cache (var, key) = some e →
      slot_status b.region e.slot ≠ SLOT_OK := by
    intro e he
    rw [hnc] at he
    exact Option.noConfusion he
  obtain ⟨h1, h2, h3, h4, h5, h6, e, he, hst, hfr⟩ :=
    client_get_cached_miss_spec db b sib var key t hc hp hv hk hstale
  obtain ⟨hval, hun⟩ := hfr hnc
  have hstale2 : ∀ e2,
      alookup (client_get db b sib var key).2.2.1.cl.cache (var, key)
        = some e2 →
      slot_status (client_get db b sib var key).2.2.1.region e2.slot
        ≠ SLOT_OK := by
    intro e2 he2
    rw [he] at he2
    injection he2 with he2
    rw [← he2]
    exact hst
  have hv' : alookup ((client_get db b sib var key).2.1).dbs var = some t := by
    rw [h2]
    exact hv
  obtain ⟨g1, g2, g3, g4, _⟩ :=
    client_get_cached_miss_spec (client_get db b sib var key).2.1
      (client_get db b sib var key).2.2.1
      (client_get db b sib var key).2.2.2.1 var key t h6 h5 hv' hk hstale2
  exact ⟨h1, h4, ⟨e, he, hval, hun⟩, g1, g4⟩

/-- Witness for C2's amended statement on the concrete system: the miss raises
KeyError after sending one request, and the immediate repeat get sends one
request again. -/
theorem C2_read_miss_no_negative_cache_witness :
    (client_get exDB exCacheSide exPlainSide "v" "k").1
      = Except.error (PyErr.keyError (some "k"))
    ∧ (client_get exDB exCacheSide exPlainSide "v" "k").2.2.2.2 = 1
    ∧ (client_get (client_get exDB exCacheSide exPlainSide "v" "k").2.1
        (client_get exDB exCacheSide exPlainSide "v" "k").2.2.1
        (client_get exDB exCacheSide exPlainSide "v" "k").2.2.2.1
        "v" "k").2.2.2.2 = 1 :=
  ⟨(C2_read_miss_no_negative_cache exDB exCacheSide exPlainSide "v" "k" []
      rfl rfl rfl rfl rfl).1,
   (C2_read_miss_no_negative_cache exDB exCacheSide exPlainSide "v" "k" []
      rfl rfl rfl rfl rfl).2.1,
   (C2_read_miss_no_negative_cache exDB exCacheSide exPlainSide "v" "k" []
      rfl rfl rfl rfl rfl).2.2.2.2⟩

end Pyradur
